import Mathlib

/-
Verification of the session state engine of the ccc remote-control tool
(src/main.go) against its natural-language specification.

Strings are modelled as lists of characters; pane captures are lists of
lines. Transport calls (tmux, ssh) are modelled by passing the captured
pane text, or the relevant boolean outcomes, as explicit arguments.
-/

abbrev Str := List Char

/-- Whitespace test used by the trimming helpers (models strings.TrimSpace
for the characters that occur in pane text). -/
def isWS (c : Char) : Bool :=
  decide (c = ' ') || decide (c = '\t') || decide (c = '\n') || decide (c = '\r')

/-- Models strings.TrimSpace. -/
def trimSpace (s : Str) : Str :=
  ((s.dropWhile isWS).reverse.dropWhile isWS).reverse

/-- Models strings.HasPrefix: strStarts s p is true when p begins s. -/
def strStarts : Str → Str → Bool
  | _, [] => true
  | [], _ :: _ => false
  | c :: s, p :: ps => if c = p then strStarts s ps else false

/-- Models strings.HasSuffix: strEnds s p is true when p ends s. -/
def strEnds (s p : Str) : Bool :=
  strStarts s.reverse p.reverse

/-- Models strings.Contains: strHas s p is true when p occurs inside s. -/
def strHas : Str → Str → Bool
  | [], p => strStarts [] p
  | c :: rest, p => strStarts (c :: rest) p || strHas rest p

/-- Agent state classification returned by checkClaudeState
(src/main.go, the strings busy / idle / unknown). -/
inductive AgentState where
  | busy
  | idle
  | unknown
deriving DecidableEq, Repr

/-
C1 material: the three polling loops that consume checkClaudeState
readings. Each loop is modelled as a function from the debounce counter
and the remaining sequence of per-poll classifications to the boolean
"the loop settled (treated the agent as idle) before the trace ended".
-/

/-- The idle-debounce loop of handleAskCmd (src/main.go lines 640-676):
on idle the counter is incremented and the loop settles at two; any
other reading (busy or unknown) resets the counter to zero. -/
def askIdleLoop : Nat → List AgentState → Bool
  | _, [] => false
  | c, s :: rest =>
    if s = AgentState.idle then
      (if 2 ≤ c + 1 then true else askIdleLoop (c + 1) rest)
    else askIdleLoop 0 rest

/-- The idle-debounce loop of the background capture task
captureResponseAsync (src/main.go lines 771-807): same shape as the ask
loop, any non-idle reading resets the counter. -/
def captureIdleLoop : Nat → List AgentState → Bool
  | _, [] => false
  | c, s :: rest =>
    if s = AgentState.idle then
      (if 2 ≤ c + 1 then true else captureIdleLoop (c + 1) rest)
    else captureIdleLoop 0 rest

/-- The idle-debounce loop of the typing side-channel
startContinuousTyping (src/main.go lines 1518-1541): idle increments and
settles at two, busy resets, and unknown leaves the counter unchanged. -/
def typingIdleLoop : Nat → List AgentState → Bool
  | _, [] => false
  | c, s :: rest =>
    match s with
    | AgentState.idle => if 2 ≤ c + 1 then true else typingIdleLoop (c + 1) rest
    | AgentState.busy => typingIdleLoop 0 rest
    | AgentState.unknown => typingIdleLoop c rest

/-- Spec-side predicate: the trace contains two adjacent idle readings. -/
def consecutiveIdle : List AgentState → Bool
  | [] => false
  | [_] => false
  | a :: b :: rest =>
    (decide (a = AgentState.idle) && decide (b = AgentState.idle))
      || consecutiveIdle (b :: rest)

/-- Spec-side helper: remove the unknown readings from a trace. -/
def denoise (l : List AgentState) : List AgentState :=
  l.filter (fun s => match s with | AgentState.unknown => false | _ => true)

/-- Spec-side predicate: the trace contains two idle readings with no
busy reading between them (adjacent after removing unknown readings). -/
def idlePairNoBusy (l : List AgentState) : Bool :=
  consecutiveIdle (denoise l)

theorem consecutiveIdle_cons (s : AgentState) (t : List AgentState)
    (h : consecutiveIdle t = true) : consecutiveIdle (s :: t) = true := by
  cases t with
  | nil => simp [consecutiveIdle] at h
  | cons b rest => simp [consecutiveIdle, h]

theorem askIdleLoop_consec (l : List AgentState) :
    (askIdleLoop 0 l = true → consecutiveIdle l = true) ∧
    (askIdleLoop 1 l = true →
      l.head? = some AgentState.idle ∨ consecutiveIdle l = true) := by
  induction l with
  | nil => simp [askIdleLoop]
  | cons s rest ih =>
    constructor
    · intro h
      by_cases hs : s = AgentState.idle
      · subst hs
        have h1 : askIdleLoop 1 rest = true := by
          simpa [askIdleLoop] using h
        rcases ih.2 h1 with hh | hh
        · cases rest with
          | nil => simp [List.head?] at hh
          | cons b t =>
            simp [List.head?] at hh
            simp [consecutiveIdle, hh]
        · exact consecutiveIdle_cons _ _ hh
      · have h0 : askIdleLoop 0 rest = true := by
          simpa [askIdleLoop, hs] using h
        exact consecutiveIdle_cons _ _ (ih.1 h0)
    · intro h
      by_cases hs : s = AgentState.idle
      · subst hs
        left; rfl
      · have h0 : askIdleLoop 0 rest = true := by
          simpa [askIdleLoop, hs] using h
        right
        exact consecutiveIdle_cons _ _ (ih.1 h0)

theorem captureIdleLoop_eq_ask (c : Nat) (l : List AgentState) :
    captureIdleLoop c l = askIdleLoop c l := by
  induction l generalizing c with
  | nil => rfl
  | cons s rest ih => simp [captureIdleLoop, askIdleLoop, ih]

theorem typingIdleLoop_pair (l : List AgentState) :
    (typingIdleLoop 0 l = true → idlePairNoBusy l = true) ∧
    (typingIdleLoop 1 l = true →
      (denoise l).head? = some AgentState.idle ∨
        consecutiveIdle (denoise l) = true) := by
  induction l with
  | nil => simp [typingIdleLoop]
  | cons s rest ih =>
    cases s with
    | idle =>
      constructor
      · intro h
        have h1 : typingIdleLoop 1 rest = true := by
          simpa [typingIdleLoop] using h
        have hd : denoise (AgentState.idle :: rest)
            = AgentState.idle :: denoise rest := by
          simp [denoise]
        rcases ih.2 h1 with hh | hh
        · cases hdr : denoise rest with
          | nil => rw [hdr] at hh; simp [List.head?] at hh
          | cons b t =>
            rw [hdr] at hh
            simp [List.head?] at hh
            simp [idlePairNoBusy, hd, hdr, consecutiveIdle, hh]
        · simp only [idlePairNoBusy, hd]
          exact consecutiveIdle_cons _ _ hh
      · intro _
        left
        simp [denoise, List.head?]
    | busy =>
      constructor
      · intro h
        have h0 : typingIdleLoop 0 rest = true := by
          simpa [typingIdleLoop] using h
        have hd : denoise (AgentState.busy :: rest)
            = AgentState.busy :: denoise rest := by
          simp [denoise]
        simp only [idlePairNoBusy, hd]
        exact consecutiveIdle_cons _ _ (ih.1 h0)
      · intro h
        have h0 : typingIdleLoop 0 rest = true := by
          simpa [typingIdleLoop] using h
        right
        have hd : denoise (AgentState.busy :: rest)
            = AgentState.busy :: denoise rest := by
          simp [denoise]
        rw [hd]
        exact consecutiveIdle_cons _ _ (ih.1 h0)
    | unknown =>
      have hd : denoise (AgentState.unknown :: rest) = denoise rest := by
        simp [denoise]
      constructor
      · intro h
        have h0 : typingIdleLoop 0 rest = true := by
          simpa [typingIdleLoop] using h
        simpa [idlePairNoBusy, hd] using ih.1 h0
      · intro h
        have h1 : typingIdleLoop 1 rest = true := by
          simpa [typingIdleLoop] using h
        simpa [hd] using ih.2 h1

theorem consecutiveIdle_denoise (l : List AgentState)
    (h : consecutiveIdle l = true) : idlePairNoBusy l = true := by
  induction l with
  | nil => simp [consecutiveIdle] at h
  | cons a t ih =>
    cases t with
    | nil => simp [consecutiveIdle] at h
    | cons b rest =>
      simp only [consecutiveIdle, Bool.or_eq_true, Bool.and_eq_true,
        decide_eq_true_eq] at h
      rcases h with ⟨ha, hb⟩ | h
      · subst ha; subst hb
        simp [idlePairNoBusy, denoise, consecutiveIdle]
      · have hr := ih h
        simp only [idlePairNoBusy] at hr ⊢
        cases a with
        | idle =>
          have hd : denoise (AgentState.idle :: b :: rest)
              = AgentState.idle :: denoise (b :: rest) := by
            simp [denoise]
          rw [hd]; exact consecutiveIdle_cons _ _ hr
        | busy =>
          have hd : denoise (AgentState.busy :: b :: rest)
              = AgentState.busy :: denoise (b :: rest) := by
            simp [denoise]
          rw [hd]; exact consecutiveIdle_cons _ _ hr
        | unknown =>
          have hd : denoise (AgentState.unknown :: b :: rest)
              = denoise (b :: rest) := by
            simp [denoise]
          rw [hd]; exact hr

/-- C1 (amended): the ask wait loop and the background capture task
settle only after two consecutive idle readings (any non-idle reading
resets their counter); the typing side-channel does not reset on
unknown, so it settles only after two idle readings with no intervening
busy reading (adjacent once unknown readings are dropped); and whenever
a trace contains no such idle pair - in particular when its only idle
reading is flanked by busy readings - none of the three callers settles. -/
theorem debounce_settlement (trace : List AgentState) :
    (askIdleLoop 0 trace = true → consecutiveIdle trace = true) ∧
    (captureIdleLoop 0 trace = true → consecutiveIdle trace = true) ∧
    (typingIdleLoop 0 trace = true → idlePairNoBusy trace = true) ∧
    (idlePairNoBusy trace = false →
      askIdleLoop 0 trace = false ∧ captureIdleLoop 0 trace = false ∧
        typingIdleLoop 0 trace = false) := by
  refine ⟨(askIdleLoop_consec trace).1, ?_, (typingIdleLoop_pair trace).1, ?_⟩
  · intro h
    rw [captureIdleLoop_eq_ask] at h
    exact (askIdleLoop_consec trace).1 h
  · intro h
    refine ⟨?_, ?_, ?_⟩
    · by_contra hc
      have := consecutiveIdle_denoise trace
        ((askIdleLoop_consec trace).1 (by simpa using hc))
      rw [this] at h; simp at h
    · by_contra hc
      have hb : askIdleLoop 0 trace = true := by
        rw [← captureIdleLoop_eq_ask]; simpa using hc
      have := consecutiveIdle_denoise trace ((askIdleLoop_consec trace).1 hb)
      rw [this] at h; simp at h
    · by_contra hc
      have := (typingIdleLoop_pair trace).1 (by simpa using hc)
      rw [this] at h; simp at h

/-- C1 counterexample: the typing side-channel settles on the trace
idle, unknown, idle even though no two idle readings are consecutive,
because an unknown reading does not reset its counter. -/
theorem debounce_typing_nonconsecutive :
    typingIdleLoop 0
        [AgentState.idle, AgentState.unknown, AgentState.idle] = true ∧
      consecutiveIdle
        [AgentState.idle, AgentState.unknown, AgentState.idle] = false := by
  decide

/-- C1 witness: on the trace busy, idle, idle the ask loop settles and
two consecutive idles are present; on the trace busy, idle, busy (a
single idle flanked by busy) no caller settles. -/
theorem debounce_settlement_witness :
    consecutiveIdle [AgentState.busy, AgentState.idle, AgentState.idle] = true ∧
      askIdleLoop 0 [AgentState.busy, AgentState.idle, AgentState.busy] = false ∧
      captureIdleLoop 0 [AgentState.busy, AgentState.idle, AgentState.busy] = false ∧
      typingIdleLoop 0 [AgentState.busy, AgentState.idle, AgentState.busy] = false :=
  ⟨(debounce_settlement [AgentState.busy, AgentState.idle, AgentState.idle]).1
      (by decide),
    (debounce_settlement [AgentState.busy, AgentState.idle, AgentState.busy]).2.2.2
      (by decide)⟩

/-
C2 material: checkClaudeState (src/main.go lines 1325-1400). The pane
capture is modelled as the list of its lines.
-/

/-- Prompt-line test of checkClaudeState: the trimmed line equals the
prompt glyph (the second comparison from the source is kept verbatim;
it can never hold after trimming). -/
def isPromptLine (l : Str) : Bool :=
  decide (trimSpace l = ['❯']) || decide (trimSpace l = ("> ".data))

/-- Lines skipped by checkClaudeState before the activity checks:
separator lines and the status bar. -/
def skipLine (l : Str) : Bool :=
  strStarts (trimSpace l) ['─'] || strHas l ("bypass permissions".data)

/-- Activity indicators that mark the state busy when they appear on a
non-skipped line after the prompt. -/
def activityIndicator (l : Str) : Bool :=
  strHas l ("ctrl+c to interrupt".data) || strHas l ['✽'] || strHas l ['✻'] ||
    strHas l ("Running…".data) || strHas l ("Thinking…".data)

/-- The lines strictly after the last prompt line, or none when no line
is a prompt line (models the backward index scan of checkClaudeState). -/
def splitAtLastPrompt : List Str → Option (List Str)
  | [] => none
  | l :: rest =>
    match splitAtLastPrompt rest with
    | some suf => some suf
    | none => if isPromptLine l then some rest else none

/-- checkClaudeState (src/main.go lines 1325-1400): unknown when no
prompt line exists; busy when a non-skipped line after the last prompt
carries an activity indicator; idle otherwise. The final loop of the
source over the lines before the prompt has no effect and is omitted. -/
def checkClaudeState (lines : List Str) : AgentState :=
  match splitAtLastPrompt lines with
  | none => AgentState.unknown
  | some suf =>
    if suf.any (fun l => !skipLine l && activityIndicator l) then AgentState.busy
    else AgentState.idle

theorem splitAtLastPrompt_none (lines : List Str) :
    splitAtLastPrompt lines = none ↔ ∀ l ∈ lines, isPromptLine l = false := by
  induction lines with
  | nil => simp [splitAtLastPrompt]
  | cons a rest ih =>
    simp only [splitAtLastPrompt]
    cases hr : splitAtLastPrompt rest with
    | some suf =>
      simp only []
      constructor
      · intro h; exact absurd h (by simp)
      · intro h
        have : splitAtLastPrompt rest = none := by
          rw [ih]; intro l hl; exact h l (List.mem_cons_of_mem _ hl)
        rw [this] at hr; exact absurd hr (by simp)
    | none =>
      have hrest := ih.mp hr
      by_cases hp : isPromptLine a = true
      · simp [hp]
      · have hpf : isPromptLine a = false := by
          cases hval : isPromptLine a
          · rfl
          · exact absurd hval hp
        simp only [hpf, if_neg Bool.false_ne_true]
        constructor
        · intro _ l hl
          rcases List.mem_cons.mp hl with h1 | h1
          · subst h1; exact hpf
          · exact hrest l h1
        · intro _; trivial

theorem splitAtLastPrompt_append (pre : List Str) (p : Str) (suf : List Str)
    (hp : isPromptLine p = true) (hsuf : ∀ l ∈ suf, isPromptLine l = false) :
    splitAtLastPrompt (pre ++ p :: suf) = some suf := by
  induction pre with
  | nil =>
    have hnone : splitAtLastPrompt suf = none := (splitAtLastPrompt_none suf).mpr hsuf
    simp [splitAtLastPrompt, hnone, hp]
  | cons a rest ih =>
    have hstep : (a :: rest) ++ p :: suf = a :: (rest ++ p :: suf) := rfl
    rw [hstep]
    simp only [splitAtLastPrompt]
    rw [ih]

/-- C2 (amended): checkClaudeState returns unknown exactly when no pane
line is the input-prompt glyph; when the pane splits as a last prompt
line followed by prompt-free lines, it returns busy exactly when one of
those lines both escapes the separator/status-bar skip and carries an
interrupt hint, a spinner glyph, or a Running/Thinking phrase, and idle
otherwise - in particular a prompt followed only by a status-bar line
classifies idle. -/
theorem checkClaudeState_classification (lines pre suf : List Str) (p : Str) :
    ((∀ l ∈ lines, isPromptLine l = false) → checkClaudeState lines = AgentState.unknown) ∧
    (lines = pre ++ p :: suf → isPromptLine p = true →
      (∀ l ∈ suf, isPromptLine l = false) →
      ((∃ l ∈ suf, skipLine l = false ∧ activityIndicator l = true) →
        checkClaudeState lines = AgentState.busy) ∧
      ((∀ l ∈ suf, skipLine l = true ∨ activityIndicator l = false) →
        checkClaudeState lines = AgentState.idle)) := by
  constructor
  · intro h
    unfold checkClaudeState
    rw [(splitAtLastPrompt_none lines).mpr h]
  · intro hsplit hp hsuf
    have hs : splitAtLastPrompt lines = some suf := by
      rw [hsplit]; exact splitAtLastPrompt_append pre p suf hp hsuf
    constructor
    · rintro ⟨l, hl, hskip, hact⟩
      unfold checkClaudeState
      rw [hs]
      have : suf.any (fun l => !skipLine l && activityIndicator l) = true := by
        rw [List.any_eq_true]
        exact ⟨l, hl, by simp [hskip, hact]⟩
      simp [this]
    · intro hnone
      unfold checkClaudeState
      rw [hs]
      have : suf.any (fun l => !skipLine l && activityIndicator l) = false := by
        rw [Bool.eq_false_iff]
        intro hany
        rcases List.any_eq_true.mp hany with ⟨l, hl, hcond⟩
        rcases (by simpa using hcond :
          skipLine l = false ∧ activityIndicator l = true) with ⟨hns, hact⟩
        rcases hnone l hl with hsk | hna
        · exact absurd hsk (by simp [hns])
        · exact absurd hact (by simp [hna])
      simp [this]

/-- C2 counterexample: a pane whose line after the prompt contains the
spinner glyph but also the status-bar phrase classifies idle, because
the skip runs before the activity checks; the claim as stated would
classify it busy. -/
theorem checkClaudeState_spinner_skipped :
    checkClaudeState [['❯'], ("✽ bypass permissions".data)] = AgentState.idle ∧
      strHas ("✽ bypass permissions".data) ['✽'] = true := by
  constructor
  · rfl
  · rfl

/-- C2 witness: a pane with a prompt line followed only by a status-bar
line classifies idle; a pane with no prompt line classifies unknown; a
prompt followed by an interrupt-hint line classifies busy. -/
theorem checkClaudeState_classification_witness :
    checkClaudeState [['❯'], ("⏵ bypass permissions".data)] = AgentState.idle ∧
      checkClaudeState [("plain shell".data)] = AgentState.unknown ∧
      checkClaudeState [['❯'], ("esc to interrupt, ctrl+c to interrupt".data)]
        = AgentState.busy :=
  ⟨((checkClaudeState_classification
        [['❯'], ("⏵ bypass permissions".data)] [] [("⏵ bypass permissions".data)]
        ['❯']).2 rfl (by decide) (by decide)).2 (by decide),
    (checkClaudeState_classification [("plain shell".data)] [] [] []).1 (by decide),
    ((checkClaudeState_classification
        [['❯'], ("esc to interrupt, ctrl+c to interrupt".data)] []
        [("esc to interrupt, ctrl+c to interrupt".data)] ['❯']).2 rfl (by decide)
      (by decide)).1
      ⟨("esc to interrupt, ctrl+c to interrupt".data), by decide, by decide, by decide⟩⟩

/-
C3 material: the process-wide message id counter (src/main.go lines
194-239). The persisted log is modelled as the list of ids parsed from
all history files; the filesystem walk is peripheral.
-/

/-- initMessageIDCounter (src/main.go lines 202-239): the counter starts
at zero and takes every persisted id that is larger. -/
def initMessageIDCounter (persisted : List Int) : Int :=
  persisted.foldl (fun m i => if m < i then i else m) 0

/-- Wrap an integer into the signed 64-bit range, modelling the
overflow behaviour of the Go int64 counter. -/
def wrapInt64 (n : Int) : Int :=
  (n + 2 ^ 63) % 2 ^ 64 - 2 ^ 63

/-- nextMessageID (src/main.go lines 194-199): increments the int64
counter under the lock, wrapping at the int64 boundary as Go does, and
returns the new value; the pair is (issued id, new counter value). -/
def nextMessageID (c : Int) : Int × Int :=
  (wrapInt64 (c + 1), wrapInt64 (c + 1))

/-- Counter value after k calls to nextMessageID following a restart
that seeded it from the persisted ids. -/
def counterAfter (persisted : List Int) : Nat → Int
  | 0 => initMessageIDCounter persisted
  | k + 1 => (nextMessageID (counterAfter persisted k)).2

/-- The id issued by the k-th call (zero-based) after the reseed. -/
def issuedID (persisted : List Int) (k : Nat) : Int :=
  (nextMessageID (counterAfter persisted k)).1

theorem initMessageIDCounter_bound (persisted : List Int) :
    0 ≤ initMessageIDCounter persisted ∧
      ∀ x ∈ persisted, x ≤ initMessageIDCounter persisted := by
  suffices h : ∀ (p : List Int) (a : Int),
      a ≤ p.foldl (fun m i => if m < i then i else m) a ∧
        ∀ x ∈ p, x ≤ p.foldl (fun m i => if m < i then i else m) a by
    exact (h persisted 0)
  intro p
  induction p with
  | nil => intro a; simp
  | cons i rest ih =>
    intro a
    have hstep : a ≤ (if a < i then i else a) ∧ i ≤ (if a < i then i else a) := by
      by_cases hai : a < i
      · simp [hai]; omega
      · simp [hai]; omega
    constructor
    · exact le_trans hstep.1 ((ih (if a < i then i else a)).1)
    · intro x hx
      rcases List.mem_cons.mp hx with hx | hx
      · rw [hx]
        exact le_trans hstep.2 ((ih (if a < i then i else a)).1)
      · exact (ih (if a < i then i else a)).2 x hx

theorem wrapInt64_eq_self (n : Int) (h1 : -(2 ^ 63) ≤ n) (h2 : n < 2 ^ 63) :
    wrapInt64 n = n := by
  have hpow : (2 : Int) ^ 64 = 2 ^ 63 + 2 ^ 63 := by norm_num
  have h3 : 0 ≤ n + 2 ^ 63 := by omega
  have h4 : n + 2 ^ 63 < 2 ^ 64 := by omega
  unfold wrapInt64
  rw [Int.emod_eq_of_lt h3 h4]
  omega

theorem counterAfter_eq_of_no_wrap (persisted : List Int) (k : Nat)
    (h : initMessageIDCounter persisted + k < 2 ^ 63) :
    counterAfter persisted k = initMessageIDCounter persisted + k := by
  induction k with
  | zero => simp [counterAfter]
  | succ k ih =>
    have hM : 0 ≤ initMessageIDCounter persisted :=
      (initMessageIDCounter_bound persisted).1
    have hpos : (0 : Int) < 2 ^ 63 := by norm_num
    have hcast : ((k + 1 : Nat) : Int) = (k : Int) + 1 := by push_cast; ring
    rw [hcast] at h
    have hk : initMessageIDCounter persisted + k < 2 ^ 63 := by omega
    have hrec : counterAfter persisted (k + 1)
        = wrapInt64 (counterAfter persisted k + 1) := rfl
    rw [hrec, ih hk, wrapInt64_eq_self _ (by omega) (by omega)]
    push_cast
    ring

theorem issuedID_eq_of_no_wrap (persisted : List Int) (k : Nat)
    (h : initMessageIDCounter persisted + k + 1 < 2 ^ 63) :
    issuedID persisted k = initMessageIDCounter persisted + k + 1 := by
  have hM : 0 ≤ initMessageIDCounter persisted :=
    (initMessageIDCounter_bound persisted).1
  have hpos : (0 : Int) < 2 ^ 63 := by norm_num
  have hk : initMessageIDCounter persisted + k < 2 ^ 63 := by omega
  have hrec : issuedID persisted k
      = wrapInt64 (counterAfter persisted k + 1) := rfl
  rw [hrec, counterAfter_eq_of_no_wrap persisted k hk,
    wrapInt64_eq_self _ (by omega) (by omega)]

/-- C3 (amended): the counter is seeded at startup with the maximum id
found across the persisted history files, and as long as that maximum
plus the number of issued ids stays below 2 to the 63 (the int64
counter does not overflow), every issued id strictly exceeds every
persisted id - in particular the first id issued after a restart
exceeds the maximum id ever persisted - and later calls issue strictly
larger ids than earlier calls. At a persisted id of 2 to the 63 minus
one the counter wraps and the guarantee fails. -/
theorem messageID_monotonic (persisted : List Int) (x : Int) (j k : Nat) :
    (initMessageIDCounter persisted + k + 1 < 2 ^ 63 → x ∈ persisted →
      x < issuedID persisted k) ∧
    (initMessageIDCounter persisted + k + 1 < 2 ^ 63 → j < k →
      issuedID persisted j < issuedID persisted k) := by
  constructor
  · intro hw hx
    have hxle := (initMessageIDCounter_bound persisted).2 x hx
    rw [issuedID_eq_of_no_wrap persisted k hw]
    omega
  · intro hw hjk
    have hjk2 : (j : Int) < k := by exact_mod_cast hjk
    have hj : initMessageIDCounter persisted + j + 1 < 2 ^ 63 := by omega
    rw [issuedID_eq_of_no_wrap persisted j hj,
      issuedID_eq_of_no_wrap persisted k hw]
    omega

/-- C3 counterexample: with the maximal int64 id persisted, the seeded
counter wraps on the first increment, so the first id issued after the
restart is below the persisted maximum instead of above it. -/
theorem messageID_wrap_counterexample :
    (9223372036854775807 : Int) ∈ [(9223372036854775807 : Int)] ∧
      issuedID [(9223372036854775807 : Int)] 0 < 9223372036854775807 := by
  constructor
  · exact List.mem_singleton.mpr rfl
  · decide

/-- C3 witness: with persisted ids 3, 7, 2 (far from the int64 bound)
the first issued id exceeds the persisted maximum 7, and the first
issued id is smaller than the second. -/
theorem messageID_monotonic_witness :
    (7 : Int) < issuedID [3, 7, 2] 0 ∧ issuedID [3, 7, 2] 0 < issuedID [3, 7, 2] 1 :=
  ⟨(messageID_monotonic [3, 7, 2] 7 0 0).1 (by decide) (by decide),
    (messageID_monotonic [3, 7, 2] 7 0 1).2 (by decide) (by decide)⟩

/-
C4 material: the per-session capture guard (src/main.go lines 191-192
and 755-810). A send command for a remote session calls
captureResponseAsync, whose LoadOrStore on activeCaptures either finds
the session already marked (and spawns nothing) or marks it and spawns
the capture task, which deletes the mark when it ends. The events are
modelled as an interleaving of task starts and task ends.
-/

inductive CaptureEv where
  | send (s : String)
  | finish (s : String)
deriving DecidableEq

/-- State of the guard map and of the set of running capture tasks (a
multiset: a duplicated spawn would put the same name twice). -/
structure CaptureState where
  guard : List String
  running : List String
deriving DecidableEq

/-- One event: captureResponseAsync either observes the guard entry and
returns without spawning, or atomically stores the entry and spawns the
task; a finishing task removes its running entry and its guard entry. -/
def captureStep (st : CaptureState) (e : CaptureEv) : CaptureState :=
  match e with
  | CaptureEv.send s =>
    if s ∈ st.guard then st else ⟨s :: st.guard, s :: st.running⟩
  | CaptureEv.finish s =>
    if s ∈ st.running then ⟨st.guard.erase s, st.running.erase s⟩ else st

/-- Run an event interleaving from the initial empty state. -/
def captureRun (evs : List CaptureEv) : CaptureState :=
  evs.foldl captureStep ⟨[], []⟩

/-- Invariant tying the guard map to the running tasks. -/
def CaptureInv (st : CaptureState) : Prop :=
  st.guard.Nodup ∧
    ∀ s, (s ∈ st.guard → st.running.count s ≤ 1) ∧
      (s ∉ st.guard → st.running.count s = 0)

theorem captureStep_inv (st : CaptureState) (e : CaptureEv)
    (h : CaptureInv st) : CaptureInv (captureStep st e) := by
  obtain ⟨hnd, hcnt⟩ := h
  cases e with
  | send s =>
    by_cases hg : s ∈ st.guard
    · simpa [captureStep, hg] using ⟨hnd, hcnt⟩
    · refine ⟨?_, ?_⟩
      · simp only [captureStep, if_neg hg]
        exact List.nodup_cons.mpr ⟨hg, hnd⟩
      · intro t
        have hzero : st.running.count s = 0 := (hcnt s).2 hg
        constructor
        · intro ht
          by_cases hts : t = s
          · subst hts
            simp [captureStep, hg, List.count_cons, hzero]
          · have htg : t ∈ st.guard := by
              have : t ∈ s :: st.guard := by simpa [captureStep, hg] using ht
              rcases List.mem_cons.mp this with h1 | h1
              · exact absurd h1 hts
              · exact h1
            have := (hcnt t).1 htg
            simpa [captureStep, hg, List.count_cons, hts] using this
        · intro ht
          have htg : t ∉ st.guard := by
            intro hc
            exact ht (by simp [captureStep, hg, List.mem_cons, hc])
          have hts : ¬ t = s := by
            intro hc
            exact ht (by simp [captureStep, hg, hc])
          have := (hcnt t).2 htg
          simpa [captureStep, hg, List.count_cons, hts] using this
  | finish s =>
    by_cases hr : s ∈ st.running
    · have hpos : 0 < st.running.count s := List.count_pos_iff.mpr hr
      have hsg : s ∈ st.guard := by
        by_contra hc
        rw [(hcnt s).2 hc] at hpos
        exact absurd hpos (by simp)
      simp only [captureStep, if_pos hr]
      refine ⟨hnd.erase s, ?_⟩
      intro t
      by_cases hts : t = s
      · subst hts
        have hnotin : t ∉ st.guard.erase t := hnd.not_mem_erase
        have hone : st.running.count t = 1 := le_antisymm ((hcnt t).1 hsg) hpos
        constructor
        · intro hcont
          exact absurd hcont (by simpa [captureStep, hr] using hnotin)
        · intro _
          simp [captureStep, hr, List.count_erase_self, hone]
      · constructor
        · intro ht
          have htg : t ∈ st.guard :=
            (List.mem_erase_of_ne hts).mp (by simpa [captureStep, hr] using ht)
          have := (hcnt t).1 htg
          simpa [captureStep, hr, List.count_erase_of_ne hts] using this
        · intro ht
          have htg : t ∉ st.guard := by
            intro hc
            exact ht (by
              simp only [captureStep, hr, if_pos]
              exact (List.mem_erase_of_ne hts).mpr hc)
          have := (hcnt t).2 htg
          simpa [captureStep, hr, List.count_erase_of_ne hts] using this
    · simpa [captureStep, hr] using ⟨hnd, hcnt⟩

theorem captureRun_inv (evs : List CaptureEv) : CaptureInv (captureRun evs) := by
  suffices h : ∀ (l : List CaptureEv) (st : CaptureState),
      CaptureInv st → CaptureInv (l.foldl captureStep st) by
    refine h evs ⟨[], []⟩ ⟨List.nodup_nil, ?_⟩
    intro s
    simp
  intro l
  induction l with
  | nil => intro st h; exact h
  | cons e rest ih =>
    intro st h
    exact ih (captureStep st e) (captureStep_inv st e h)

/-- C4: after any interleaving of send commands and capture-task ends,
at most one background capture task per session name is running, and a
send arriving while the guard entry for that session is present leaves
the state unchanged (no duplicate task is spawned). -/
theorem capture_single_flight (evs : List CaptureEv) (s : String) :
    (captureRun evs).running.count s ≤ 1 ∧
      (s ∈ (captureRun evs).guard →
        captureStep (captureRun evs) (CaptureEv.send s) = captureRun evs) := by
  obtain ⟨hnd, hcnt⟩ := captureRun_inv evs
  constructor
  · by_cases hg : s ∈ (captureRun evs).guard
    · exact (hcnt s).1 hg
    · rw [(hcnt s).2 hg]
      omega
  · intro hg
    simp [captureStep, hg]

/-- C4 witness: two send commands for the same session in a row spawn
only one task (the running count stays one), and the second send is a
no-op on the state. -/
theorem capture_single_flight_witness :
    (captureRun [CaptureEv.send "alpha", CaptureEv.send "alpha"]).running.count
        "alpha" ≤ 1 ∧
      captureStep (captureRun [CaptureEv.send "alpha"]) (CaptureEv.send "alpha")
        = captureRun [CaptureEv.send "alpha"] :=
  ⟨(capture_single_flight [CaptureEv.send "alpha", CaptureEv.send "alpha"] "alpha").1,
    (capture_single_flight [CaptureEv.send "alpha"] "alpha").2 (by decide)⟩

/-
C5 and C6 material: the response extractor (src/main.go lines 1010-1201).
-/

/-- Scan after the bullet glyph in isClaudeUIArtifact: walking an ASCII
letter run, reaching an opening parenthesis or a colon marks a tool
call; any other character stops the scan. -/
def toolCallScan : Str → Bool
  | [] => false
  | r :: rest =>
    if r = '(' ∨ r = ':' then true
    else if r = ' ' ∨ r < 'A' ∨ (r > 'Z' ∧ r < 'a') ∨ r > 'z' then false
    else toolCallScan rest

/-- isClaudeUIArtifact (src/main.go lines 1110-1201): classifies a line
as terminal UI chrome rather than response text. -/
def isClaudeUIArtifact (line : Str) : Bool :=
  let trimmed := trimSpace line
  let bulletRest := trimSpace (trimmed.drop 1)
  decide (trimmed = []) ||
  decide (trimmed.dropWhile (fun c => decide (c = '─')) = []) ||
  (strStarts trimmed ['●'] &&
    (toolCallScan bulletRest ||
      strStarts bulletRest ("Searched ".data) ||
      strStarts bulletRest ("Wrote ".data) ||
      strStarts bulletRest ("Read ".data))) ||
  strStarts trimmed ['⎿'] ||
  (strStarts line ("     ".data) && !strStarts trimmed ['●'] &&
    (strHas trimmed ("(ctrl+o to expand)".data) || strStarts trimmed ['…'] ||
      strStarts trimmed ("… +".data))) ||
  strStarts trimmed ['✶'] || strStarts trimmed ['✢'] ||
  strStarts trimmed ['✽'] || strStarts trimmed ['✻'] ||
  strStarts trimmed ['·'] || strStarts trimmed ("* ".data) ||
  strStarts trimmed ['⏵'] ||
  (strHas trimmed (" for ".data) &&
    (strEnds trimmed ['s'] || strEnds trimmed ['m']) &&
    (strStarts trimmed ("Cogitated".data) || strStarts trimmed ("Brewed".data) ||
      strStarts trimmed ("Cooked".data) || strStarts trimmed ("Churned".data) ||
      strStarts trimmed ("Marinated".data) || strStarts trimmed ("Cultivated".data))) ||
  strHas line ("ctrl+c to interrupt".data) ||
  strHas line ("bypass permissions".data) ||
  strHas trimmed ("(ctrl+o to expand)".data) ||
  strStarts trimmed ("(timeout ".data) ||
  decide (trimmed = ("(No content)".data))

/-- The bullet strip applied to kept lines (src/main.go lines 1082-1087):
a line whose trimmed form begins with the list bullet loses that prefix,
any other line is kept verbatim. -/
def cleanLine (line : Str) : Str :=
  if strStarts (trimSpace line) ("● ".data) then (trimSpace line).drop 2 else line

/-- Per-line treatment of an in-response line by captureClaudeResponse
(src/main.go lines 1077-1090): blank and artifact lines are dropped,
other lines are kept after the bullet strip. -/
def keepLine (line : Str) : Option Str :=
  if trimSpace line = [] then none
  else if isClaudeUIArtifact line then none
  else some (cleanLine line)

/-- The backward scan of captureClaudeResponse (src/main.go lines
1063-1091), consuming the pane lines latest first: collection starts at
the first line containing the prompt glyph and stops at the next
(earlier) line containing it. The result is in latest-first order. -/
def collectRev : List Str → Bool → List Str
  | [], _ => []
  | l :: rest, inResp =>
    if strHas l ['❯'] then
      (if inResp then [] else collectRev rest true)
    else if inResp then
      (match keepLine l with
        | none => collectRev rest true
        | some c => c :: collectRev rest true)
    else collectRev rest false

/-- The joined and trimmed response text of one extraction attempt
before the echo check (src/main.go line 1093). -/
def rawCollect (lines : List Str) : Str :=
  trimSpace (List.intercalate ['\n'] ((collectRev lines.reverse false).reverse))

/-- captureClaudeResponse (src/main.go lines 1034-1106): one extraction
attempt over the given pane lines, with the echo check against the
trimmed sent text. -/
def captureClaudeResponse (lines : List Str) (sentText : Str) : Str :=
  if sentText ≠ [] ∧ rawCollect lines ≠ [] then
    (if rawCollect lines = trimSpace sentText ∨
        strEnds (trimSpace sentText) (rawCollect lines) = true ∨
        strEnds (rawCollect lines) (trimSpace sentText) = true then []
      else rawCollect lines)
  else rawCollect lines

/-- The capture windows of the three attempts (src/main.go line 1016). -/
def captureSizes : List Nat := [200, 500, 500]

/-- The retry loop of getLastClaudeResponse: the environment maps an
attempt index and a window size to the pane text captured there. -/
def attemptLoop (env : Nat → Nat → List Str) (sentText : Str) :
    Nat → List Nat → Str
  | _, [] => []
  | i, sz :: rest =>
    if captureClaudeResponse (env i sz) sentText = [] then
      attemptLoop env sentText (i + 1) rest
    else captureClaudeResponse (env i sz) sentText

/-- getLastClaudeResponse (src/main.go lines 1014-1030): up to three
attempts over the capture windows, returning the first non-empty
extraction result, else empty. -/
def getLastClaudeResponse (env : Nat → Nat → List Str) (sentText : Str) : Str :=
  attemptLoop env sentText 0 captureSizes

/-- C5: a single extraction attempt with a non-empty sent text returns
the empty string whenever the collected response text equals the trimmed
sent text, is a suffix of it, or has it as a suffix; and the caller
accepts no empty attempt as the response: it retries over the remaining
windows 500 and 500 after the first window 200, returning the first
non-empty result. -/
theorem echo_suppression (env : Nat → Nat → List Str) (lines : List Str)
    (sentText : Str) :
    (sentText ≠ [] →
      (rawCollect lines = trimSpace sentText ∨
        strEnds (trimSpace sentText) (rawCollect lines) = true ∨
        strEnds (rawCollect lines) (trimSpace sentText) = true) →
      captureClaudeResponse lines sentText = []) ∧
    (getLastClaudeResponse env sentText =
      (if captureClaudeResponse (env 0 200) sentText = [] then
        (if captureClaudeResponse (env 1 500) sentText = [] then
          captureClaudeResponse (env 2 500) sentText
        else captureClaudeResponse (env 1 500) sentText)
      else captureClaudeResponse (env 0 200) sentText)) ∧
    captureSizes = [200, 500, 500] := by
  refine ⟨?_, ?_, rfl⟩
  · intro hsent hecho
    unfold captureClaudeResponse
    by_cases hres : rawCollect lines = []
    · simp [hres]
    · rw [if_pos ⟨hsent, hres⟩, if_pos hecho]
  · simp only [getLastClaudeResponse, captureSizes, attemptLoop]
    norm_num
    by_cases h2 : captureClaudeResponse (env 2 500) sentText = []
    · simp [h2]
    · simp [h2]

/-- C5 witness: a pane whose only collected line repeats the sent text
is treated as echo and the attempt returns empty. -/
theorem echo_suppression_witness :
    captureClaudeResponse [("❯ old".data), ("hello".data), ['❯']]
        ("hello".data) = [] :=
  (echo_suppression (fun _ _ => []) [("❯ old".data), ("hello".data), ['❯']]
      ("hello".data)).1
    (by decide) (Or.inl (by decide))

/-- C6 counterexample: the line with a doubled bullet survives the
artifact filter, but its bullet-stripped output is itself classified as
a UI artifact (a spinner line), so re-running the filter on the
extractor output drops it. -/
theorem artifact_filter_not_idempotent :
    keepLine ("● * hi".data) = some ("* hi".data) ∧
      isClaudeUIArtifact ("* hi".data) = true ∧
      keepLine ("* hi".data) = none := by
  decide

/-- C6 (amended): on every kept line that does not carry the leading
list-bullet prefix, the artifact filter is idempotent: the line is kept
verbatim, its output is not a UI artifact, and a second run of the
per-line pass keeps it unchanged. A kept line with the bullet prefix can
strip to a line the filter classifies as an artifact. -/
theorem artifact_filter_idempotent_nonbullet (line out : Str) :
    keepLine line = some out →
      strStarts (trimSpace line) ("● ".data) = false →
      out = line ∧ isClaudeUIArtifact out = false ∧ keepLine out = some out := by
  intro h hb
  by_cases h1 : trimSpace line = []
  · simp [keepLine, h1] at h
  · by_cases h2 : isClaudeUIArtifact line = true
    · simp [keepLine, h1, h2] at h
    · have h2f : isClaudeUIArtifact line = false := by
        cases hv : isClaudeUIArtifact line
        · rfl
        · exact absurd hv h2
      have hclean : cleanLine line = line := by
        simp [cleanLine, hb]
      have hout : out = line := by
        have := h
        simp [keepLine, h1, h2f, hclean] at this
        exact this.symm
      subst hout
      refine ⟨rfl, h2f, ?_⟩
      simp [keepLine, h1, h2f, hclean]

/-- C6 witness: an ordinary text line is kept verbatim, is no artifact,
and is kept unchanged by a second run of the pass. -/
theorem artifact_filter_idempotent_witness :
    ("hola".data) = ("hola".data) ∧
      isClaudeUIArtifact ("hola".data) = false ∧
      keepLine ("hola".data) = some ("hola".data) :=
  artifact_filter_idempotent_nonbullet ("hola".data) ("hola".data)
    (by decide) (by decide)

/-
C7 material: ensureSessionRunning (src/main.go lines 500-559) and
restartClaudeInSession (src/main.go lines 1453-1476). The transport
outcomes are modelled as booleans; the local and the remote branch of
the source are textually parallel and are modelled once. The result is
the error string returned to the caller (empty on success) together
with the trace of performed actions.
-/

/-- Transport outcomes observed by one ensureSessionRunning call. -/
structure SessEnv where
  sessionExists : Bool
  createOk : Bool
  createDupErr : Bool
  runningFirst : Bool
  injectOk : Bool
  runningAfterRestart : Bool
deriving DecidableEq

/-- The externally visible actions of ensureSessionRunning, in order. -/
inductive SessAct where
  | createAct
  | settleWaitAct
  | checkRunAct
  | injectAct
  | restartWaitAct
  | recheckAct
deriving DecidableEq, Repr

/-- restartClaudeInSession (src/main.go lines 1453-1476): inject the
relaunch keystrokes; on injection failure report failure at once, else
wait three seconds and re-check isClaudeRunning. -/
def restartClaudeInSession (e : SessEnv) : Bool × List SessAct :=
  if e.injectOk then
    (e.runningAfterRestart,
      [SessAct.injectAct, SessAct.restartWaitAct, SessAct.recheckAct])
  else (false, [SessAct.injectAct])

/-- ensureSessionRunning (src/main.go lines 500-559): create the
session when absent (the settle wait happens only when the creation
call itself succeeded; a duplicate-session error is ignored without
waiting; any other creation error is fatal), then check isClaudeRunning
and on failure perform the single restart attempt. -/
def ensureSessionRunning (e : SessEnv) : String × List SessAct :=
  if e.sessionExists then
    (if e.runningFirst then ("", [SessAct.checkRunAct])
     else
       (if (restartClaudeInSession e).1 then
          ("", SessAct.checkRunAct :: (restartClaudeInSession e).2)
        else
          ("failed to restart Claude",
            SessAct.checkRunAct :: (restartClaudeInSession e).2)))
  else if e.createOk then
    (if e.runningFirst then
      ("", [SessAct.createAct, SessAct.settleWaitAct, SessAct.checkRunAct])
     else
       (if (restartClaudeInSession e).1 then
          ("", SessAct.createAct :: SessAct.settleWaitAct ::
            SessAct.checkRunAct :: (restartClaudeInSession e).2)
        else
          ("failed to restart Claude",
            SessAct.createAct :: SessAct.settleWaitAct ::
              SessAct.checkRunAct :: (restartClaudeInSession e).2)))
  else if e.createDupErr then
    (if e.runningFirst then ("", [SessAct.createAct, SessAct.checkRunAct])
     else
       (if (restartClaudeInSession e).1 then
          ("", SessAct.createAct :: SessAct.checkRunAct ::
            (restartClaudeInSession e).2)
        else
          ("failed to restart Claude",
            SessAct.createAct :: SessAct.checkRunAct ::
              (restartClaudeInSession e).2)))
  else ("failed to start session", [SessAct.createAct])

/-- C7: the settle wait happens exactly on the branch that actually
created the session; whenever the first isClaudeRunning check is
reached and fails, exactly one restart injection is performed, never
more; no injection happens when the first check succeeds; and when the
re-check after a successful injection still fails, the call returns the
fatal restart error. -/
theorem ensureRunning_single_restart (e : SessEnv) :
    (SessAct.settleWaitAct ∈ (ensureSessionRunning e).2 ↔
      e.sessionExists = false ∧ e.createOk = true) ∧
    List.count SessAct.injectAct (ensureSessionRunning e).2 ≤ 1 ∧
    ((ensureSessionRunning e).1 ≠ "failed to start session" →
      e.runningFirst = false →
      List.count SessAct.injectAct (ensureSessionRunning e).2 = 1) ∧
    (e.runningFirst = true →
      List.count SessAct.injectAct (ensureSessionRunning e).2 = 0) ∧
    ((ensureSessionRunning e).1 ≠ "failed to start session" →
      e.runningFirst = false → e.injectOk = true →
      e.runningAfterRestart = false →
      (ensureSessionRunning e).1 = "failed to restart Claude") := by
  obtain ⟨a, b, c, d, x, y⟩ := e
  cases a <;> cases b <;> cases c <;> cases d <;> cases x <;> cases y <;> decide

/-- C7 witness: with an existing session whose agent is not running and
whose restart injection succeeds but whose re-check still fails, exactly
one injection happens and the fatal restart error is returned; with the
agent running on a reused session, no settle wait and no injection
happen. -/
theorem ensureRunning_single_restart_witness :
    List.count SessAct.injectAct
        (ensureSessionRunning ⟨true, false, false, false, true, false⟩).2 = 1 ∧
      (ensureSessionRunning ⟨true, false, false, false, true, false⟩).1
        = "failed to restart Claude" ∧
      ¬ SessAct.settleWaitAct ∈
          (ensureSessionRunning ⟨true, false, false, true, true, true⟩).2 ∧
      List.count SessAct.injectAct
        (ensureSessionRunning ⟨true, false, false, true, true, true⟩).2 = 0 :=
  ⟨(ensureRunning_single_restart ⟨true, false, false, false, true, false⟩).2.2.1
      (by decide) rfl,
    (ensureRunning_single_restart ⟨true, false, false, false, true, false⟩).2.2.2.2
      (by decide) rfl rfl rfl,
    (fun hmem =>
      by
        have := (ensureRunning_single_restart
          ⟨true, false, false, true, true, true⟩).1.mp hmem
        exact absurd this.1 (by decide)),
    (ensureRunning_single_restart ⟨true, false, false, true, true, true⟩).2.2.2.1 rfl⟩

/-
C8 material: the command dispatch of handleSocketConnection
(src/main.go lines 383-421).
-/

/-- The handlers reachable from the socket dispatch switch. -/
inductive SocketHandler where
  | pingH
  | sessionsH
  | askH
  | sendH
  | historyH
  | screenshotH
  | subscribeH
  | unknownH
deriving DecidableEq, Repr

/-- The switch statement of handleSocketConnection (src/main.go lines
401-419): any command outside the seven listed cases, the documented
continue command included, falls to the default branch, which replies
with the error "unknown command". -/
def dispatchCommand (cmd : String) : SocketHandler :=
  if cmd = "ping" then SocketHandler.pingH
  else if cmd = "sessions" then SocketHandler.sessionsH
  else if cmd = "ask" then SocketHandler.askH
  else if cmd = "send" then SocketHandler.sendH
  else if cmd = "history" then SocketHandler.historyH
  else if cmd = "screenshot" then SocketHandler.screenshotH
  else if cmd = "subscribe" then SocketHandler.subscribeH
  else SocketHandler.unknownH

/-- C8: a continue request over the control socket is not dispatched to
any session-restarting handler; it falls to the default branch and is
answered with the unknown-command error, unlike the seven implemented
commands. -/
theorem continue_command_unhandled :
    dispatchCommand "continue" = SocketHandler.unknownH ∧
      dispatchCommand "ping" = SocketHandler.pingH ∧
      dispatchCommand "sessions" = SocketHandler.sessionsH ∧
      dispatchCommand "ask" = SocketHandler.askH ∧
      dispatchCommand "send" = SocketHandler.sendH ∧
      dispatchCommand "history" = SocketHandler.historyH ∧
      dispatchCommand "screenshot" = SocketHandler.screenshotH ∧
      dispatchCommand "subscribe" = SocketHandler.subscribeH := by
  refine ⟨?_, ?_, ?_, ?_, ?_, ?_, ?_, ?_⟩ <;> rfl

/-
C9 and C10 material: the history store (src/main.go lines 254-327) and
its callers (src/main.go lines 714-750 and 813-832). A history message
carries the id, the sender (the Go field From) and the text; timestamps
and media fields are peripheral. The hour-partitioned files of one topic
are modelled as lists of already-parsed messages, oldest file first as
returned by the sorted glob.
-/

structure HistoryMessage where
  id : Int
  sender : String
  text : String
deriving DecidableEq, Repr

/-- The per-message filter of readHistory (src/main.go lines 307-313):
keep a message when its id exceeds afterID and, for a non-empty
fromFilter, its sender matches. -/
def histPred (afterID : Int) (fromFilter : String) (m : HistoryMessage) : Bool :=
  decide (afterID < m.id) &&
    (decide (fromFilter = "") || decide (m.sender = fromFilter))

/-- The normalized limit of readHistory (src/main.go lines 276-278):
100 when absent or non-positive. -/
def histLimit (limit0 : Int) : Nat :=
  if limit0 ≤ 0 then 100 else limit0.toNat

/-- The file loop of readHistory (src/main.go lines 292-319): files come
newest first; each file is filtered and prepended to the accumulator,
and the loop stops once the accumulator reached the limit. -/
def readLoop (limit : Nat) (pred : HistoryMessage → Bool) :
    List (List HistoryMessage) → List HistoryMessage → List HistoryMessage
  | [], acc => acc
  | f :: rest, acc =>
    if limit ≤ acc.length then acc
    else readLoop limit pred rest (f.filter pred ++ acc)

/-- The accumulated messages before the final trim, oldest first. -/
def readHistoryRaw (files : List (List HistoryMessage)) (afterID limit0 : Int)
    (fromFilter : String) : List HistoryMessage :=
  readLoop (histLimit limit0) (histPred afterID fromFilter) files.reverse []

/-- readHistory (src/main.go lines 275-327): the final trim keeps the
newest limit messages (the tail of the accumulated list). -/
def readHistory (files : List (List HistoryMessage)) (afterID limit0 : Int)
    (fromFilter : String) : List HistoryMessage :=
  if histLimit limit0 < (readHistoryRaw files afterID limit0 fromFilter).length then
    (readHistoryRaw files afterID limit0 fromFilter).drop
      ((readHistoryRaw files afterID limit0 fromFilter).length - histLimit limit0)
  else readHistoryRaw files afterID limit0 fromFilter

theorem readLoop_mem (limit : Nat) (pred : HistoryMessage → Bool)
    (fs : List (List HistoryMessage)) (acc : List HistoryMessage)
    (m : HistoryMessage) (h : m ∈ readLoop limit pred fs acc) :
    m ∈ acc ∨ ∃ f ∈ fs, m ∈ f ∧ pred m = true := by
  induction fs generalizing acc with
  | nil => exact Or.inl (by simpa [readLoop] using h)
  | cons f rest ih =>
    simp only [readLoop] at h
    by_cases hl : limit ≤ acc.length
    · rw [if_pos hl] at h
      exact Or.inl h
    · rw [if_neg hl] at h
      rcases ih _ h with hacc | ⟨g, hg, hmg, hp⟩
      · rcases List.mem_append.mp hacc with hf | ha
        · rcases List.mem_filter.mp hf with ⟨hmf, hp⟩
          exact Or.inr ⟨f, List.mem_cons_self f rest, hmf, hp⟩
        · exact Or.inl ha
      · exact Or.inr ⟨g, List.mem_cons_of_mem f hg, hmg, hp⟩

/-- C9: every message returned by readHistory has id strictly above
afterID; with a non-empty fromFilter every returned message has that
sender; the number of returned messages never exceeds the limit, which
defaults to 100 when the requested limit is absent or non-positive; and
the returned list is a suffix (the newest part) of the accumulated,
oldest-first message list. -/
theorem readHistory_filtered_capped (files : List (List HistoryMessage))
    (afterID limit0 : Int) (fromFilter : String) :
    (∀ m ∈ readHistory files afterID limit0 fromFilter, afterID < m.id) ∧
    (fromFilter ≠ "" →
      ∀ m ∈ readHistory files afterID limit0 fromFilter,
        m.sender = fromFilter) ∧
    (readHistory files afterID limit0 fromFilter).length ≤ histLimit limit0 ∧
    List.IsSuffix (readHistory files afterID limit0 fromFilter)
      (readHistoryRaw files afterID limit0 fromFilter) := by
  have hmemraw : ∀ m ∈ readHistory files afterID limit0 fromFilter,
      histPred afterID fromFilter m = true := by
    intro m hm
    have hraw : m ∈ readHistoryRaw files afterID limit0 fromFilter := by
      unfold readHistory at hm
      by_cases hc : histLimit limit0 <
          (readHistoryRaw files afterID limit0 fromFilter).length
      · rw [if_pos hc] at hm
        exact List.mem_of_mem_drop hm
      · rwa [if_neg hc] at hm
    rcases readLoop_mem _ _ _ _ _ hraw with hacc | ⟨f, _, _, hp⟩
    · simp at hacc
    · exact hp
  refine ⟨?_, ?_, ?_, ?_⟩
  · intro m hm
    have := hmemraw m hm
    simp only [histPred, Bool.and_eq_true, decide_eq_true_eq] at this
    exact this.1
  · intro hff m hm
    have := hmemraw m hm
    simp only [histPred, Bool.and_eq_true, Bool.or_eq_true,
      decide_eq_true_eq] at this
    rcases this.2 with h1 | h1
    · exact absurd h1 hff
    · exact h1
  · unfold readHistory
    by_cases hc : histLimit limit0 <
        (readHistoryRaw files afterID limit0 fromFilter).length
    · rw [if_pos hc]
      rw [List.length_drop]
      omega
    · rw [if_neg hc]
      omega
  · unfold readHistory
    by_cases hc : histLimit limit0 <
        (readHistoryRaw files afterID limit0 fromFilter).length
    · rw [if_pos hc]
      exact List.drop_suffix _ _
    · rw [if_neg hc]

/-- C9 witness: with one file holding ids 1 and 5 from senders api and
claude, a request after id 2 with limit 1 returns only the id 5 message,
whose id exceeds 2, within the limit. -/
theorem readHistory_filtered_capped_witness :
    (2 : Int) < HistoryMessage.id ⟨5, "claude", "b"⟩ ∧
      HistoryMessage.sender ⟨5, "claude", "b"⟩ = "claude" ∧
      (readHistory [[⟨1, "api", "a"⟩, ⟨5, "claude", "b"⟩]] 2 1 "claude").length
        ≤ histLimit 1 :=
  ⟨(readHistory_filtered_capped [[⟨1, "api", "a"⟩, ⟨5, "claude", "b"⟩]] 2 1
        "claude").1 ⟨5, "claude", "b"⟩ (by decide),
    (readHistory_filtered_capped [[⟨1, "api", "a"⟩, ⟨5, "claude", "b"⟩]] 2 1
        "claude").2.1 (by decide) ⟨5, "claude", "b"⟩ (by decide),
    (readHistory_filtered_capped [[⟨1, "api", "a"⟩, ⟨5, "claude", "b"⟩]] 2 1
        "claude").2.2.1⟩

/-
C10 material: appendHistory (src/main.go lines 254-272) and the send
path (src/main.go lines 714-743). The persisted store is modelled as a
list of (topic id, message) pairs; appendHistory with topic id zero
returns success without touching the store.
-/

/-- appendHistory (src/main.go lines 254-272): topic id zero is skipped
with a nil error; otherwise the record is persisted. -/
def appendHistory (store : List (Int × HistoryMessage)) (topicID : Int)
    (m : HistoryMessage) : List (Int × HistoryMessage) :=
  if topicID = 0 then store else (topicID, m) :: store

/-- The messages persisted for one topic, newest first. -/
def topicMessages (store : List (Int × HistoryMessage)) (topicID : Int) :
    List HistoryMessage :=
  (store.filter (fun e => decide (e.1 = topicID))).map (fun e => e.2)

/-- The send path (src/main.go lines 714-743): issue a fresh message id,
append the record, and answer with that id regardless of whether the
append persisted anything; the result is (returned id, counter,
store). -/
def handleSendCmd (counter : Int) (store : List (Int × HistoryMessage))
    (topicID : Int) (text : String) :
    Int × Int × List (Int × HistoryMessage) :=
  ((nextMessageID counter).1, (nextMessageID counter).2,
    appendHistory store topicID
      ⟨(nextMessageID counter).1, "api", text⟩)

/-- The blocking ask path (src/main.go lines 562-677): issue a fresh id
for the operator record and append it; after the debounced idle wait
issue a second fresh id for the extracted response, append it, and
answer with that second id; the result is (returned response id,
counter, store). -/
def handleAskCmd (counter : Int) (store : List (Int × HistoryMessage))
    (topicID : Int) (text response : String) :
    Int × Int × List (Int × HistoryMessage) :=
  ((nextMessageID (nextMessageID counter).2).1,
    (nextMessageID (nextMessageID counter).2).2,
    appendHistory
      (appendHistory store topicID ⟨(nextMessageID counter).1, "api", text⟩)
      topicID
      ⟨(nextMessageID (nextMessageID counter).2).1, "claude", response⟩)

theorem readHistory_single_empty_file (afterID limit0 : Int)
    (fromFilter : String) :
    readHistory [[]] afterID limit0 fromFilter = [] := by
  by_cases h : histLimit limit0 ≤ 0
  · simp [readHistory, readHistoryRaw, readLoop, h]
  · simp [readHistory, readHistoryRaw, readLoop, h]

/-- C10: on a session with topic id zero the append is a silent no-op
reported as success: while the counter stays inside the int64 range,
send still answers with the freshly issued id counter + 1 and ask with
the freshly issued id counter + 2; both leave the store unchanged, and
a later history request for topic zero returns no messages when nothing
was ever persisted for it. -/
theorem topic_zero_history_noop (store : List (Int × HistoryMessage))
    (counter : Int) (text response : String) (m : HistoryMessage)
    (afterID limit0 : Int) (fromFilter : String) :
    appendHistory store 0 m = store ∧
    (-(2 ^ 63) ≤ counter → counter + 2 < 2 ^ 63 →
      (handleSendCmd counter store 0 text).1 = counter + 1 ∧
      (handleAskCmd counter store 0 text response).1 = counter + 2) ∧
    (handleSendCmd counter store 0 text).2.2 = store ∧
    (handleAskCmd counter store 0 text response).2.2 = store ∧
    ((∀ e ∈ store, e.1 ≠ 0) →
      readHistory [topicMessages (handleSendCmd counter store 0 text).2.2 0]
        afterID limit0 fromFilter = [] ∧
      readHistory
        [topicMessages (handleAskCmd counter store 0 text response).2.2 0]
        afterID limit0 fromFilter = []) := by
  have hsendStore : (handleSendCmd counter store 0 text).2.2 = store := by
    simp [handleSendCmd, appendHistory]
  have haskStore : (handleAskCmd counter store 0 text response).2.2 = store := by
    simp [handleAskCmd, appendHistory]
  refine ⟨by simp [appendHistory], ?_, hsendStore, haskStore, ?_⟩
  · intro h1 h2
    have hpos : (0 : Int) < 2 ^ 63 := by norm_num
    have hfst : wrapInt64 (counter + 1) = counter + 1 :=
      wrapInt64_eq_self _ (by omega) (by omega)
    constructor
    · show wrapInt64 (counter + 1) = counter + 1
      exact hfst
    · show wrapInt64 (wrapInt64 (counter + 1) + 1) = counter + 2
      rw [hfst, wrapInt64_eq_self _ (by omega) (by omega)]
      ring
  · intro hstore
    have hfilter : store.filter (fun e => decide (e.1 = 0)) = [] := by
      rw [List.filter_eq_nil_iff]
      intro e he
      simpa using hstore e he
    have hempty : topicMessages store 0 = [] := by
      unfold topicMessages
      rw [hfilter]
      rfl
    constructor
    · rw [hsendStore, hempty]
      exact readHistory_single_empty_file afterID limit0 fromFilter
    · rw [haskStore, hempty]
      exact readHistory_single_empty_file afterID limit0 fromFilter

/-- C10 witness: on topic zero with one unrelated persisted record, a
send from counter 7 answers with id 7 + 1 and an ask with id 7 + 2,
the store is unchanged, and the later history read returns nothing. -/
theorem topic_zero_history_noop_witness :
    (handleSendCmd 7 [(3, ⟨1, "api", "x"⟩)] 0 "hi").1 = 7 + 1 ∧
      (handleAskCmd 7 [(3, ⟨1, "api", "x"⟩)] 0 "hi" "yo").1 = 7 + 2 ∧
      (handleSendCmd 7 [(3, ⟨1, "api", "x"⟩)] 0 "hi").2.2
        = [(3, ⟨1, "api", "x"⟩)] ∧
      readHistory
        [topicMessages (handleAskCmd 7 [(3, ⟨1, "api", "x"⟩)] 0 "hi" "yo").2.2 0]
        0 0 "" = [] :=
  ⟨((topic_zero_history_noop [(3, ⟨1, "api", "x"⟩)] 7 "hi" "yo" ⟨9, "api", "y"⟩
        0 0 "").2.1 (by decide) (by decide)).1,
    ((topic_zero_history_noop [(3, ⟨1, "api", "x"⟩)] 7 "hi" "yo" ⟨9, "api", "y"⟩
        0 0 "").2.1 (by decide) (by decide)).2,
    (topic_zero_history_noop [(3, ⟨1, "api", "x"⟩)] 7 "hi" "yo" ⟨9, "api", "y"⟩
        0 0 "").2.2.1,
    ((topic_zero_history_noop [(3, ⟨1, "api", "x"⟩)] 7 "hi" "yo" ⟨9, "api", "y"⟩
        0 0 "").2.2.2.2 (by decide)).2⟩
